import Mathlib

/-!
Shallow embedding of the ServerPingTracker backend kernel
(src/server/storage.ts, src/server/ping-service.ts, src/server/routes.ts
and the shared schema), together with theorems checking the natural
language specification against it.

Conventions of the embedding:
* JS `number` ids, counters, timestamps and latencies are `Nat`.
* JS `null`/`undefined` optional fields are `Option _`.
* The JS `Map<number, Server>` is an insertion-ordered association list
  `List (Nat × Server)`; `Map.get`/`Map.set`/`Map.delete` are modelled by
  `mapGet`/`mapSet`/`mapDelete` below, matching the Map's replace-in-place /
  append-new / remove semantics.
* `Date.now()` values are threaded in as explicit `now : Nat` arguments.
* Network nondeterminism (fetch results, socket behaviour) is abstracted as
  explicit environment arguments.
-/

namespace ServerMonitor

/-- `status` enum of the `servers` table: `"unknown" | "online" | "offline"`. -/
inductive Status where
  | unknown
  | online
  | offline
deriving DecidableEq

/-- A row of the `servers` table (shared schema). `responseTime` is in
milliseconds; `lastPing` and `createdAt` are timestamps. -/
structure Server where
  id : Nat
  hostname : String
  ip : String
  displayName : Option String
  status : Status
  responseTime : Option Nat
  lastPing : Option Nat
  createdAt : Nat
deriving DecidableEq

/-- A row of the `ping_logs` table. `status` is `"success"` or `"failed"`;
`responseTime` is in milliseconds, null if failed. -/
structure PingLog where
  id : Nat
  serverId : Nat
  status : String
  responseTime : Option Nat
  details : Option String
  timestamp : Nat
deriving DecidableEq

/-- The singleton `settings` row. -/
structure Settings where
  id : Nat
  pingInterval : Nat
  timeout : Nat
  autoRefresh : Bool
deriving DecidableEq

/-- `insertServerSchema` payload: hostname, ip, optional displayName. -/
structure InsertServer where
  hostname : String
  ip : String
  displayName : Option String
deriving DecidableEq

/-- `insertPingLogSchema` payload. -/
structure InsertPingLog where
  serverId : Nat
  status : String
  responseTime : Option Nat
  details : Option String
deriving DecidableEq

/-- A `Partial<Server>` update object: a field that is `some _` is present in
the object literal and overrides the old field on spread (`{...server,
...updates}`); `none` means the field is absent from the update. -/
structure ServerUpdates where
  id : Option Nat
  hostname : Option String
  ip : Option String
  displayName : Option (Option String)
  status : Option Status
  responseTime : Option (Option Nat)
  lastPing : Option (Option Nat)
  createdAt : Option Nat
deriving DecidableEq

/-- A `Partial<InsertSettings>` update object. -/
structure SettingsUpdates where
  pingInterval : Option Nat
  timeout : Option Nat
  autoRefresh : Option Bool
deriving DecidableEq

/-- In-memory state of `MemStorage`: the servers map, the ping-log array, the
settings row and the two id counters. -/
structure StoreState where
  servers : List (Nat × Server)
  pingLogs : List PingLog
  settings : Settings
  currentServerId : Nat
  currentPingLogId : Nat
deriving DecidableEq

/-- JS `x || null` on an optional number: `0`, `null` and `undefined` are all
falsy, so a present `0` collapses to `null`. -/
def orNullNum : Option Nat → Option Nat
  | some n => if n = 0 then none else some n
  | none => none

/-- JS `x || null` on an optional string: the empty string is falsy. -/
def orNullStr : Option String → Option String
  | some str => if str = "" then none else some str
  | none => none

/-- JS truthiness of an optional number (used by `if (serverId)` and by
`s.responseTime` in boolean position): present and nonzero. -/
def truthyNum : Option Nat → Bool
  | some n => !(n = 0)
  | none => false

/-- `Map.get(id)` on the association-list model. -/
def mapGet (m : List (Nat × Server)) (id : Nat) : Option Server :=
  (m.find? (fun p => p.1 = id)).map (fun p => p.2)

/-- `Map.set(id, v)`: replace in place when the key exists, append otherwise. -/
def mapSet (m : List (Nat × Server)) (id : Nat) (v : Server) : List (Nat × Server) :=
  if m.any (fun p => p.1 = id) then
    m.map (fun p => if p.1 = id then (id, v) else p)
  else
    m ++ [(id, v)]

/-- `Map.delete(id)` result: whether the key existed. -/
def mapHas (m : List (Nat × Server)) (id : Nat) : Bool :=
  m.any (fun p => p.1 = id)

/-- `Map.delete(id)` effect on the entries. -/
def mapDelete (m : List (Nat × Server)) (id : Nat) : List (Nat × Server) :=
  m.filter (fun p => !(p.1 = id))

/-- The settings object built in the `MemStorage` constructor. -/
def defaultSettings : Settings :=
  { id := 1, pingInterval := 60, timeout := 10, autoRefresh := true }

/-- `MemStorage` state right after the constructor's field initialisers
(before `loadData`). -/
def initialState : StoreState :=
  { servers := [], pingLogs := [], settings := defaultSettings,
    currentServerId := 1, currentPingLogId := 1 }

/-- The `Server` object literal built by `createServer`/`createServers`. -/
def mkServer (id : Nat) (ins : InsertServer) (now : Nat) : Server :=
  { id := id, hostname := ins.hostname, ip := ins.ip,
    displayName := orNullStr ins.displayName, status := Status.unknown,
    responseTime := none, lastPing := none, createdAt := now }

/-- `MemStorage.createServer`. -/
def createServer (s : StoreState) (ins : InsertServer) (now : Nat) :
    Server × StoreState :=
  let id := s.currentServerId
  let srv := mkServer id ins now
  (srv, { s with servers := mapSet s.servers id srv, currentServerId := id + 1 })

/-- `MemStorage.createServers`: sequential per-item creation, one save at the
end (persistence is not modelled, so the state transformer is the sequential
composition of the per-item steps). -/
def createServers (s : StoreState) (inss : List InsertServer) (now : Nat) :
    List Server × StoreState :=
  match inss with
  | [] => ([], s)
  | ins :: rest =>
    let id := s.currentServerId
    let srv := mkServer id ins now
    let s1 : StoreState :=
      { s with servers := mapSet s.servers id srv, currentServerId := id + 1 }
    let res := createServers s1 rest now
    (srv :: res.1, res.2)

/-- `{...server, ...updates}`: present update fields override. -/
def applyUpdates (srv : Server) (u : ServerUpdates) : Server :=
  { id := u.id.getD srv.id, hostname := u.hostname.getD srv.hostname,
    ip := u.ip.getD srv.ip, displayName := u.displayName.getD srv.displayName,
    status := u.status.getD srv.status,
    responseTime := u.responseTime.getD srv.responseTime,
    lastPing := u.lastPing.getD srv.lastPing,
    createdAt := u.createdAt.getD srv.createdAt }

/-- `MemStorage.updateServer`: returns `undefined` and leaves the state alone
when the id is unknown. -/
def updateServer (s : StoreState) (id : Nat) (u : ServerUpdates) :
    Option Server × StoreState :=
  match mapGet s.servers id with
  | none => (none, s)
  | some srv =>
    let srv2 := applyUpdates srv u
    (some srv2, { s with servers := mapSet s.servers id srv2 })

/-- `MemStorage.deleteServer`: `Map.delete` result plus the new state. -/
def deleteServer (s : StoreState) (id : Nat) : Bool × StoreState :=
  (mapHas s.servers id, { s with servers := mapDelete s.servers id })

/-- `MemStorage.createPingLog`: assigns the next log id, stamps the current
time, appends, then keeps only the most recent 1000 logs (`slice(-1000)`). -/
def createPingLog (s : StoreState) (ins : InsertPingLog) (now : Nat) :
    PingLog × StoreState :=
  let id := s.currentPingLogId
  let log : PingLog :=
    { id := id, serverId := ins.serverId, status := ins.status,
      responseTime := ins.responseTime, details := orNullStr ins.details,
      timestamp := now }
  let logs := s.pingLogs ++ [log]
  let logs2 := if logs.length > 1000 then logs.drop (logs.length - 1000) else logs
  (log, { s with pingLogs := logs2, currentPingLogId := id + 1 })

/-- `MemStorage.updateSettings`: merge-update via object spread. -/
def updateSettings (s : StoreState) (u : SettingsUpdates) :
    Settings × StoreState :=
  let st := s.settings
  let st2 : Settings :=
    { id := st.id, pingInterval := u.pingInterval.getD st.pingInterval,
      timeout := u.timeout.getD st.timeout,
      autoRefresh := u.autoRefresh.getD st.autoRefresh }
  (st2, { s with settings := st2 })

/-- Descending-recency ordering used as the sort key of `getPingLogs`
(`(a, b) => b.timestamp.getTime() - a.timestamp.getTime()`). -/
def logLatest (a b : PingLog) : Prop := b.timestamp ≤ a.timestamp

instance : DecidableRel logLatest := fun a b =>
  inferInstanceAs (Decidable (b.timestamp ≤ a.timestamp))

instance : IsTotal PingLog logLatest :=
  ⟨fun a b => Nat.le_total b.timestamp a.timestamp⟩

instance : IsTrans PingLog logLatest :=
  ⟨fun _ _ _ hab hbc => Nat.le_trans hbc hab⟩

/-- JS `Array.prototype.sort` is a stable sort, so its output on the
descending-timestamp comparator coincides with stable insertion sort under
`logLatest` (a stable sort's output is determined by the total preorder). -/
def sortDesc (l : List PingLog) : List PingLog :=
  l.insertionSort logLatest

/-- `MemStorage.getPingLogs(serverId?, limit)`: the filter is guarded by JS
truthiness of `serverId`, so an absent id and an id of `0` both skip it. -/
def getPingLogs (s : StoreState) (serverId : Option Nat) (limit : Nat) :
    List PingLog :=
  let logs :=
    match serverId with
    | some sid => if sid = 0 then s.pingLogs
                  else s.pingLogs.filter (fun l => l.serverId = sid)
    | none => s.pingLogs
  (sortDesc logs).take limit

/-! ## Ping service (src/server/ping-service.ts) -/

/-- The two application-layer protocols tried by `httpPing`. -/
inductive Protocol where
  | http
  | https
deriving DecidableEq

/-- Outcome of a single `fetch` attempt against one protocol, supplied by the
environment: a response (with status, statusText and the measured elapsed
milliseconds), an `AbortError` (the per-attempt timeout fired), or another
error (DNS failure, connection refused, TLS error, ...). -/
inductive FetchOutcome where
  | response (status : Nat) (statusText : String) (elapsedMs : Nat)
  | abort
  | failure (msg : String)
deriving DecidableEq

/-- The result record returned by `pingServer`/`httpPing`/`tcpPing`:
`{ success, responseTime?, details }`. -/
structure ProbeResult where
  success : Bool
  responseTime : Option Nat
  details : String
deriving DecidableEq

/-- `protocol.toUpperCase()` for the two protocol strings. -/
def protoName : Protocol → String
  | Protocol.http => "HTTP"
  | Protocol.https => "HTTPS"

/-- One alternative of the IPv4-octet regex
`(25[0-5]|2[0-4][0-9]|[01]?[0-9][0-9]?)`, on the characters of one
dot-separated group. -/
def octetMatch : List Char → Bool
  | [a] => a.isDigit
  | [a, b] => a.isDigit && b.isDigit
  | [a, b, c] =>
      (a = '2' && b = '5' && ('0' ≤ c && c ≤ '5')) ||
      (a = '2' && ('0' ≤ b && b ≤ '4') && c.isDigit) ||
      ((a = '0' || a = '1') && b.isDigit && c.isDigit)
  | _ => false

/-- Split a character list on `'.'` (every dot separates two groups, so `n`
dots give `n + 1` groups, possibly empty). -/
def splitOnDot : List Char → List (List Char)
  | [] => [[]]
  | '.' :: rest => [] :: splitOnDot rest
  | c :: rest =>
    match splitOnDot rest with
    | [] => [[c]]
    | g :: gs => (c :: g) :: gs

/-- `httpPing`'s anchored dotted-quad test
`/^(?:(?:25[0-5]|2[0-4][0-9]|[01]?[0-9][0-9]?)\.){3}(?:...)$/.test(target)`:
exactly four octet groups. -/
def isIP (target : List Char) : Bool :=
  match splitOnDot target with
  | [a, b, c, d] => octetMatch a && octetMatch b && octetMatch c && octetMatch d
  | _ => false

/-- ASCII lowering, the effect of the regex `i` flag on the letters of
`localhost`. -/
def asciiLower (c : Char) : Char :=
  if 'A' ≤ c && c ≤ 'Z' then Char.ofNat (c.toNat + 32) else c

/-- Bool-valued prefix test on character lists. -/
def listStarts : List Char → List Char → Bool
  | [], _ => true
  | _ :: _, [] => false
  | a :: ps, b :: ts => a = b && listStarts ps ts

/-- `pingServer`'s private/local classifier
`/^(192\.168\.|10\.|172\.(1[6-9]|2[0-9]|3[01])\.|127\.|localhost)/i.test(target)`:
an unanchored-at-the-end, case-insensitive prefix test. -/
def isLocalIP (target : List Char) : Bool :=
  let t := target.map asciiLower
  listStarts "192.168.".data t || listStarts "10.".data t ||
  (match t with
   | '1' :: '7' :: '2' :: '.' :: a :: b :: '.' :: _ =>
       (a = '1' && ('6' ≤ b && b ≤ '9')) || (a = '2' && b.isDigit) ||
       (a = '3' && (b = '0' || b = '1'))
   | _ => false) ||
  listStarts "127.".data t || listStarts "localhost".data t

/-- `httpPing`'s protocol trial order: `['http', 'https']` for dotted-quad
targets, `['https', 'http']` otherwise. -/
def httpProtocols (target : List Char) : List Protocol :=
  if isIP target then [Protocol.http, Protocol.https]
  else [Protocol.https, Protocol.http]

/-- The `for (const protocol of protocols)` loop body of `httpPing`: a
received response returns immediately (success iff `200 <= status < 500`),
an `AbortError` returns a timeout failure immediately, any other error falls
through to the next protocol; an exhausted list yields the final failure. -/
def httpAttemptLoop (env : Protocol → FetchOutcome) :
    List Protocol → ProbeResult
  | [] => { success := false, responseTime := none,
            details := "No HTTP/HTTPS response" }
  | p :: rest =>
    match env p with
    | FetchOutcome.response st text t =>
      if 200 ≤ st ∧ st < 500 then
        { success := true, responseTime := some t,
          details := protoName p ++ " " ++ toString st ++ " " ++ text }
      else
        { success := false, responseTime := none,
          details := protoName p ++ " " ++ toString st ++ " " ++ text }
    | FetchOutcome.abort =>
      { success := false, responseTime := none, details := "Connection timeout" }
    | FetchOutcome.failure _ => httpAttemptLoop env rest

/-- `PingService.httpPing` with the network abstracted as `env`. -/
def httpPing (target : List Char) (env : Protocol → FetchOutcome) :
    ProbeResult :=
  httpAttemptLoop env (httpProtocols target)

/-- The per-attempt abort timeouts (ms) armed by `httpPing`: one
`setTimeout(() => controller.abort(), timeoutSeconds * 1000)` per protocol
tried. -/
def httpAttemptTimeoutsMs (timeoutSeconds : Nat) : List Nat :=
  [timeoutSeconds * 1000, timeoutSeconds * 1000]

/-- The per-attempt connection timeouts (ms) armed by `tcpPing`: the single
`tryPort(ports[0])` call uses
`timeout: Math.min(timeoutSeconds * 1000, 2000)`. -/
def tcpAttemptTimeoutsMs (timeoutSeconds : Nat) : List Nat :=
  [min (timeoutSeconds * 1000) 2000]

/-- All per-attempt sub-timeouts (ms) allotted by one `pingServer` call, in
trial order: for local/private targets `tcpPing(min(t,5))` then
`httpPing(min(t,3))`, otherwise `httpPing(t)` then `tcpPing(t)`. -/
def pingServerAttemptTimeoutsMs (target : List Char) (timeoutSeconds : Nat) :
    List Nat :=
  if isLocalIP target then
    tcpAttemptTimeoutsMs (min timeoutSeconds 5) ++
      httpAttemptTimeoutsMs (min timeoutSeconds 3)
  else
    httpAttemptTimeoutsMs timeoutSeconds ++ tcpAttemptTimeoutsMs timeoutSeconds

/-! ## Routes (src/server/routes.ts) -/

/-- The shared probe-recording step of `pingAllServers`, the bulk-import
route and `POST /api/servers/:id/ping`: update the server row
(`status`, `responseTime: result.responseTime || null`, `lastPing`) and
append a ping log (`status`, `responseTime: result.responseTime || null`,
`details`). -/
def applyProbeOutcome (s : StoreState) (id : Nat) (r : ProbeResult)
    (now : Nat) : Option Server × StoreState :=
  let upd : ServerUpdates :=
    { id := none, hostname := none, ip := none, displayName := none,
      status := some (if r.success then Status.online else Status.offline),
      responseTime := some (orNullNum r.responseTime),
      lastPing := some (some now), createdAt := none }
  let res1 := updateServer s id upd
  let res2 := createPingLog res1.2
    { serverId := id,
      status := if r.success then "success" else "failed",
      responseTime := orNullNum r.responseTime,
      details := some r.details } now
  (res1.1, res2.2)

/-- `POST /api/servers/:id/ping`: a missing id answers 404 before anything is
probed or written; otherwise the probe result `r` is recorded. -/
def probeOne (s : StoreState) (id : Nat) (r : ProbeResult) (now : Nat) :
    Option Server × StoreState :=
  match mapGet s.servers id with
  | none => (none, s)
  | some _ => applyProbeOutcome s id r now

/-- The JSON answered by `GET /api/stats`: `avgResponse` is rendered as
`"N/A"` when the rounded average is `0`, modelled as `none`. -/
structure Stats where
  onlineCount : Nat
  offlineCount : Nat
  totalCount : Nat
  avgResponse : Option Nat
deriving DecidableEq

/-- `Math.round(sum / len)` on exact rationals: `floor(sum/len + 1/2)`.
(The route divides two doubles; for latency-sized integers the double
quotient rounds to the same integer as the exact quotient.) -/
def jsRound (sum len : Nat) : Nat :=
  (2 * sum + len) / (2 * len)

/-- The route's `onlineServers` selection:
`servers.filter(s => s.status === "online" && s.responseTime)` — note the JS
truthiness of `s.responseTime`. -/
def onlineWithLatency (servers : List Server) : List Server :=
  servers.filter
    (fun s => decide (s.status = Status.online) && truthyNum s.responseTime)

/-- The route's latency total:
`onlineServers.reduce((sum, s) => sum + (s.responseTime || 0), 0)`. -/
def latencySum (servers : List Server) : Nat :=
  ((onlineWithLatency servers).map (fun s => s.responseTime.getD 0)).sum

/-- The `GET /api/stats` handler body over a `getServers()` snapshot. -/
def computeStats (servers : List Server) : Stats :=
  let onlineCount := (servers.filter (fun s => s.status = Status.online)).length
  let offlineCount := (servers.filter (fun s => s.status = Status.offline)).length
  let totalCount := servers.length
  let ons := onlineWithLatency servers
  let avg := if ons.length > 0 then jsRound (latencySum servers) ons.length else 0
  { onlineCount := onlineCount, offlineCount := offlineCount,
    totalCount := totalCount,
    avgResponse := if avg > 0 then some avg else none }

/-! ## Persistence load and the operation alphabet (for restart claims) -/

/-- The parsed persisted document `server-monitor-data.json`: each top-level
collection may be absent. -/
structure PersistedData where
  servers : Option (List Server)
  pingLogs : Option (List PingLog)
  settings : Option Settings
deriving DecidableEq

/-- `Math.max(...xs, 0)`. -/
def listMax (l : List Nat) : Nat := l.foldr max 0

/-- `MemStorage.loadData` on an existing, parseable file: each present
collection replaces the constructor state, and each id counter becomes one
more than the largest loaded id (or 1 when nothing was loaded). -/
def loadData (d : PersistedData) : StoreState :=
  let s1 :=
    match d.servers with
    | some svs =>
      { initialState with
        servers := svs.foldl (fun m sv => mapSet m sv.id sv) [],
        currentServerId := listMax (svs.map Server.id) + 1 }
    | none => initialState
  let s2 :=
    match d.pingLogs with
    | some ls =>
      { s1 with
        pingLogs := ls,
        currentPingLogId := listMax (ls.map PingLog.id) + 1 }
    | none => s1
  match d.settings with
  | some st => { s2 with settings := st }
  | none => s2

/-- The store mutations a process can perform after startup. -/
inductive StoreOp where
  | create (ins : InsertServer) (now : Nat)
  | createMany (inss : List InsertServer) (now : Nat)
  | update (id : Nat) (u : ServerUpdates)
  | delete (id : Nat)
  | appendLog (ins : InsertPingLog) (now : Nat)
  | setSettings (u : SettingsUpdates)

/-- State effect of one store operation. -/
def applyOp (s : StoreState) : StoreOp → StoreState
  | StoreOp.create ins now => (createServer s ins now).2
  | StoreOp.createMany inss now => (createServers s inss now).2
  | StoreOp.update id u => (updateServer s id u).2
  | StoreOp.delete id => (deleteServer s id).2
  | StoreOp.appendLog ins now => (createPingLog s ins now).2
  | StoreOp.setSettings u => (updateSettings s u).2

/-- The server ids assigned by one operation run in state `s`. -/
def serverIdsAssigned (s : StoreState) : StoreOp → List Nat
  | StoreOp.create _ _ => [s.currentServerId]
  | StoreOp.createMany inss _ => List.range' s.currentServerId inss.length
  | _ => []

/-- The ping-log ids assigned by one operation run in state `s`. -/
def logIdsAssigned (s : StoreState) : StoreOp → List Nat
  | StoreOp.appendLog _ _ => [s.currentPingLogId]
  | _ => []

/-- All server ids assigned over an operation sequence, in order. -/
def assignedServerIds : StoreState → List StoreOp → List Nat
  | _, [] => []
  | s, op :: rest => serverIdsAssigned s op ++ assignedServerIds (applyOp s op) rest

/-- All ping-log ids assigned over an operation sequence, in order. -/
def assignedLogIds : StoreState → List StoreOp → List Nat
  | _, [] => []
  | s, op :: rest => logIdsAssigned s op ++ assignedLogIds (applyOp s op) rest

/-! ## Spec-side reference definitions (stated from the spec's words, for
comparison with the code-derived definitions above) -/

/-- The protocol order the spec prescribes for the primary check: `{https,
http}` for DNS names and public addresses, `{http, https}` for private-range
IP addresses (an IPv4 literal in the private/loopback ranges). -/
def specPrimaryOrder (target : List Char) : List Protocol :=
  if isIP target && isLocalIP target then [Protocol.http, Protocol.https]
  else [Protocol.https, Protocol.http]

/-- The spec's "informational through client-error" status range: HTTP
status classes 1xx through 4xx, i.e. `100 ≤ status ≤ 499`. -/
def specReachableStatus (status : Nat) : Bool :=
  decide (100 ≤ status ∧ status < 500)

/-! ## Concrete instances used by witnesses and counterexamples -/

/-- The public IPv4 literal `8.8.8.8`. -/
def target8888 : List Char := "8.8.8.8".data

/-- An environment where both protocols answer `200 OK` (HTTP in 5 ms,
HTTPS in 7 ms); which latency is reported reveals which was tried first. -/
def envBoth : Protocol → FetchOutcome
  | Protocol.http => FetchOutcome.response 200 "OK" 5
  | Protocol.https => FetchOutcome.response 200 "OK" 7

/-- An environment where every attempt receives an informational `100`
response. -/
def env100 : Protocol → FetchOutcome :=
  fun _ => FetchOutcome.response 100 "Continue" 3

/-- An environment where every attempt receives `404 Not Found`. -/
def env404 : Protocol → FetchOutcome :=
  fun _ => FetchOutcome.response 404 "Not Found" 12

/-- A probe that succeeded with a measured round trip of 0 ms (request and
response within the same `Date.now()` millisecond). -/
def zeroLatencySuccess : ProbeResult :=
  { success := true, responseTime := some 0, details := "HTTP 200 OK" }

/-- An update object with every field absent. -/
def emptyUpdates : ServerUpdates :=
  { id := none, hostname := none, ip := none, displayName := none,
    status := none, responseTime := none, lastPing := none, createdAt := none }

/-- A freshly created example server with id 1. -/
def srvEx : Server :=
  { id := 1, hostname := "example.com", ip := "", displayName := none,
    status := Status.unknown, responseTime := none, lastPing := none,
    createdAt := 0 }

/-- A store holding only `srvEx`. -/
def stEx : StoreState :=
  { initialState with servers := [(1, srvEx)], currentServerId := 2 }

/-- An example online server with the given latency. -/
def onAt (ms : Nat) : Server :=
  { id := 1, hostname := "h", ip := "1.2.3.4", displayName := none,
    status := Status.online, responseTime := some ms, lastPing := some 0,
    createdAt := 0 }

/-- An example offline server. -/
def offSrv : Server :=
  { id := 3, hostname := "h3", ip := "1.2.3.6", displayName := none,
    status := Status.offline, responseTime := none, lastPing := some 0,
    createdAt := 0 }

/-- An example ping log for server 1. -/
def c9log : PingLog :=
  { id := 1, serverId := 1, status := "success", responseTime := some 12,
    details := none, timestamp := 10 }

/-- A store holding only `c9log`. -/
def c9state : StoreState :=
  { initialState with pingLogs := [c9log], currentPingLogId := 2 }

/-- A store holding `srvEx` together with its ping log `c9log`. -/
def c8state : StoreState :=
  { initialState with
    servers := [(1, srvEx)], pingLogs := [c9log],
    currentServerId := 2, currentPingLogId := 2 }

/-- Exactly 1000 stored ping logs. -/
def logsEx1000 : List PingLog :=
  (List.range 1000).map
    (fun i => { id := i + 1, serverId := 1, status := "success",
                responseTime := some 10, details := none, timestamp := i })

/-- A store at the 1000-record history cap. -/
def s1000 : StoreState :=
  { initialState with pingLogs := logsEx1000, currentPingLogId := 1001 }

/-- An example ping-log insert payload. -/
def insLogEx : InsertPingLog :=
  { serverId := 1, status := "failed", responseTime := none,
    details := some "Connection timeout" }

/-- An example server insert payload. -/
def insSrvEx : InsertServer :=
  { hostname := "h", ip := "10.0.0.1", displayName := none }

/-- A server as it would sit in a persisted file, with id 7. -/
def loadedSrv7 : Server :=
  { id := 7, hostname := "old", ip := "1.2.3.4", displayName := none,
    status := Status.online, responseTime := some 5, lastPing := some 50,
    createdAt := 10 }

/-- A ping log as it would sit in a persisted file, with id 3. -/
def loadedLog3 : PingLog :=
  { id := 3, serverId := 7, status := "success", responseTime := some 5,
    details := none, timestamp := 50 }

/-- A persisted document holding `loadedSrv7` and `loadedLog3`. -/
def docEx : PersistedData :=
  { servers := some [loadedSrv7], pingLogs := some [loadedLog3],
    settings := none }

/-- An example post-restart operation sequence: one create, one log append. -/
def opsEx : List StoreOp :=
  [StoreOp.create insSrvEx 60, StoreOp.appendLog insLogEx 61]

/-! ## Helper lemmas -/

/-- The ping-log count after one `createPingLog` is capped at 1000. -/
theorem createPingLog_length_le (s : StoreState) (ins : InsertPingLog)
    (now : Nat) (h : s.pingLogs.length ≤ 1000) :
    ((createPingLog s ins now).2).pingLogs.length ≤ 1000 := by
  unfold createPingLog
  simp only
  split
  · simp only [List.length_drop, List.length_append, List.length_cons,
      List.length_nil]
    omega
  · simp only [List.length_append, List.length_cons, List.length_nil] at *
    omega

/-! ## Claim theorems -/

/-- C2: appending a probe record never takes the system-wide history above
1000 records — neither in one step from any state within the cap, nor over
any sequence of appends — and an append performed with the history exactly
at the cap evicts exactly the single oldest record, keeping FIFO order. -/
theorem history_cap_fifo (s : StoreState) (ins : InsertPingLog) (now : Nat)
    (batch : List (InsertPingLog × Nat)) :
    (s.pingLogs.length ≤ 1000 →
      ((createPingLog s ins now).2).pingLogs.length ≤ 1000) ∧
    (s.pingLogs.length = 1000 →
      ((createPingLog s ins now).2).pingLogs =
        s.pingLogs.drop 1 ++ [(createPingLog s ins now).1]) ∧
    (s.pingLogs.length ≤ 1000 →
      ((batch.foldl (fun st p => (createPingLog st p.1 p.2).2) s)).pingLogs.length
        ≤ 1000) := by
  refine ⟨createPingLog_length_le s ins now, ?_, ?_⟩
  · intro h
    unfold createPingLog
    simp only
    have hlen : (s.pingLogs ++ [(createPingLog s ins now).1]).length = 1001 := by
      simp [h]
    rw [if_pos (by simp [h])]
    have h1 : (s.pingLogs ++
        [({ id := s.currentPingLogId, serverId := ins.serverId,
            status := ins.status, responseTime := ins.responseTime,
            details := orNullStr ins.details, timestamp := now } :
          PingLog)]).length - 1000 = 1 := by simp [h]
    rw [h1, List.drop_append_of_le_length (by omega)]
  · induction batch generalizing s with
    | nil => intro h; simpa using h
    | cons p rest ih =>
      intro h
      simp only [List.foldl_cons]
      exact ih _ (createPingLog_length_le s p.1 p.2 h)

/-- C2 witness: at a store holding exactly 1000 records, one more append
stays at 1000 and drops exactly the oldest record. -/
theorem history_cap_fifo_witness :
    ((createPingLog s1000 insLogEx 99).2).pingLogs.length ≤ 1000 ∧
    ((createPingLog s1000 insLogEx 99).2).pingLogs =
      s1000.pingLogs.drop 1 ++ [(createPingLog s1000 insLogEx 99).1] :=
  ⟨(history_cap_fifo s1000 insLogEx 99 []).1
      (by simp [s1000, logsEx1000, initialState]),
   (history_cap_fifo s1000 insLogEx 99 []).2.1
      (by simp [s1000, logsEx1000, initialState])⟩

/-- C3 counterexample: for a public target at the default 10 s timeout, the
per-attempt sub-timeouts allotted by one probe (two HTTP protocol attempts
at 10 s each plus the TCP port attempt at 2 s) total 22 s, exceeding the
claimed bound of timeoutSeconds + 1 s = 11 s. -/
theorem timeout_budget_counterexample :
    (pingServerAttemptTimeoutsMs target8888 10).sum = 22000 ∧
    ¬ ((pingServerAttemptTimeoutsMs target8888 10).sum ≤ (10 + 1) * 1000) := by
  decide

/-- C3 amended: the total of the per-attempt sub-timeouts allotted by one
probe is bounded by three times the caller-supplied timeout (each of the
two HTTP protocol attempts and the TCP attempt is individually capped by
`timeoutSeconds`), not by `timeoutSeconds` plus one second. -/
theorem timeout_budget_amended (target : List Char) (timeoutSeconds : Nat) :
    (pingServerAttemptTimeoutsMs target timeoutSeconds).sum ≤
      3 * (timeoutSeconds * 1000) := by
  unfold pingServerAttemptTimeoutsMs httpAttemptTimeoutsMs tcpAttemptTimeoutsMs
  split
  · have h1 : min (min timeoutSeconds 5 * 1000) 2000 ≤ timeoutSeconds * 1000 :=
      le_trans (Nat.min_le_left _ _)
        (Nat.mul_le_mul_right _ (Nat.min_le_left timeoutSeconds 5))
    have h2 : min timeoutSeconds 3 * 1000 ≤ timeoutSeconds * 1000 :=
      Nat.mul_le_mul_right _ (Nat.min_le_left timeoutSeconds 3)
    simp only [List.sum_append, List.sum_cons, List.sum_nil]
    omega
  · have h1 : min (timeoutSeconds * 1000) 2000 ≤ timeoutSeconds * 1000 :=
      Nat.min_le_left _ _
    simp only [List.sum_append, List.sum_cons, List.sum_nil]
    omega

/-- C7: applying a probe outcome (or any update) to an id that is not in the
store returns an absent result and leaves the whole store state unchanged,
and the on-demand single-target probe on a nonexistent id likewise returns
an absent result without recording anything. -/
theorem missing_id_noop (s : StoreState) (id : Nat) (u : ServerUpdates)
    (r : ProbeResult) (now : Nat) (h : mapGet s.servers id = none) :
    updateServer s id u = (none, s) ∧ probeOne s id r now = (none, s) := by
  constructor
  · unfold updateServer
    rw [h]
  · unfold probeOne
    rw [h]

/-- C7 witness: at the empty store, updating or probing id 1 is a no-op. -/
theorem missing_id_noop_witness :
    mapGet initialState.servers 1 = none ∧
    updateServer initialState 1 emptyUpdates = (none, initialState) ∧
    probeOne initialState 1 zeroLatencySuccess 0 = (none, initialState) :=
  ⟨by decide,
   (missing_id_noop initialState 1 emptyUpdates zeroLatencySuccess 0 (by decide)).1,
   (missing_id_noop initialState 1 emptyUpdates zeroLatencySuccess 0 (by decide)).2⟩

/-- C4 counterexample: `8.8.8.8` is a public IPv4 address, so the claim
prescribes the order `{https, http}`, but the code keys the order on
"is an IPv4 literal" alone and tries `{http, https}`. -/
theorem protocol_order_counterexample :
    isIP target8888 = true ∧ isLocalIP target8888 = false ∧
    httpProtocols target8888 = [Protocol.http, Protocol.https] ∧
    specPrimaryOrder target8888 = [Protocol.https, Protocol.http] ∧
    httpProtocols target8888 ≠ specPrimaryOrder target8888 := by
  decide

/-- C4 amended: the primary check tries `{https, http}` for targets that are
not IPv4 literals (DNS names) and `{http, https}` for every IPv4 literal,
private or public. Behaviourally: when both protocols would answer 200, an
IPv4-literal target reports the HTTP attempt and any other target reports
the HTTPS attempt. -/
theorem protocol_order_amended (target : List Char)
    (e : Protocol → FetchOutcome)
    (hh : e Protocol.http = FetchOutcome.response 200 "OK" 5)
    (hs : e Protocol.https = FetchOutcome.response 200 "OK" 7) :
    (isIP target = true →
      httpPing target e =
        { success := true, responseTime := some 5, details := "HTTP 200 OK" }) ∧
    (isIP target = false →
      httpPing target e =
        { success := true, responseTime := some 7, details := "HTTPS 200 OK" }) := by
  constructor <;> intro h <;>
    simp [httpPing, httpProtocols, h, httpAttemptLoop, hh, hs, protoName] <;>
    decide

/-- C4 witness: the public IPv4 literal `8.8.8.8` is probed HTTP-first. -/
theorem protocol_order_amended_witness :
    envBoth Protocol.http = FetchOutcome.response 200 "OK" 5 ∧
    isIP target8888 = true ∧
    httpPing target8888 envBoth =
      { success := true, responseTime := some 5, details := "HTTP 200 OK" } :=
  ⟨rfl, by decide,
   (protocol_order_amended target8888 envBoth rfl rfl).1 (by decide)⟩

/-- C5 counterexample: an informational `100 Continue` response lies in the
claim's "informational through client-error" range, yet the code classifies
it as a failure (its acceptance window starts at 200). -/
theorem reachable_range_counterexample :
    (httpPing target8888 env100).success = false ∧
    specReachableStatus 100 = true := by
  decide

/-- C5 amended: whenever an attempt of the primary check receives an HTTP
response, the probe returns immediately and its outcome is success exactly
when the status lies in 200..499 (successful through client-error);
informational 1xx responses and 5xx+ responses yield failure. -/
theorem reachable_range_amended (e : Protocol → FetchOutcome) (p : Protocol)
    (rest : List Protocol) (status : Nat) (text : String) (t : Nat)
    (h : e p = FetchOutcome.response status text t) :
    (httpAttemptLoop e (p :: rest)).success =
      decide (200 ≤ status ∧ status < 500) := by
  unfold httpAttemptLoop
  rw [h]
  by_cases hst : 200 ≤ status ∧ status < 500 <;> simp [hst]

/-- C5 witness: a `404 Not Found` response counts as a successful probe. -/
theorem reachable_range_amended_witness :
    (httpAttemptLoop env404 [Protocol.https]).success =
      decide (200 ≤ 404 ∧ 404 < 500) :=
  reachable_range_amended env404 Protocol.https [] 404 "Not Found" 12 rfl

/-- `Map.delete`'s return value agrees with whether `Map.get` finds the key. -/
theorem mapHas_eq_isSome (m : List (Nat × Server)) (id : Nat) :
    mapHas m id = (mapGet m id).isSome := by
  unfold mapHas mapGet
  induction m with
  | nil => rfl
  | cons p rest ih =>
    by_cases h : p.1 = id
    · simp [h]
    · simp [h, ih]

/-- After `Map.delete(id)` the key `id` resolves to nothing. -/
theorem mapGet_delete_self (m : List (Nat × Server)) (id : Nat) :
    mapGet (mapDelete m id) id = none := by
  suffices hfind : (mapDelete m id).find? (fun p => p.1 = id) = none by
    simp [mapGet, hfind]
  rw [List.find?_eq_none]
  intro x hx
  have h2 := List.of_mem_filter hx
  simp only [Bool.not_eq_true'] at h2
  simp [h2]

/-- `Map.delete(id)` resolves every other key as before. -/
theorem mapGet_delete_ne (m : List (Nat × Server)) (id j : Nat) (h : j ≠ id) :
    mapGet (mapDelete m id) j = mapGet m j := by
  unfold mapGet mapDelete
  induction m with
  | nil => rfl
  | cons p rest ih =>
    by_cases hp : p.1 = id
    · have hpj : ¬ (p.1 = j) := by
        rw [hp]; exact fun hh => h hh.symm
      rw [List.filter_cons_of_neg (by simp [hp]),
        List.find?_cons_of_neg _ (by simp [hpj])]
      exact ih
    · rw [List.filter_cons_of_pos (by simp [hp])]
      by_cases hpj : p.1 = j
      · rw [List.find?_cons_of_pos _ (by simp [hpj]),
          List.find?_cons_of_pos _ (by simp [hpj])]
      · rw [List.find?_cons_of_neg _ (by simp [hpj]),
          List.find?_cons_of_neg _ (by simp [hpj])]
        exact ih

/-- C8: `deleteServer` answers exactly whether the id existed, removes that
target and no other, and leaves the probe history untouched — querying the
history of the deleted id still returns its records. -/
theorem delete_keeps_history (s : StoreState) (id : Nat) :
    ((deleteServer s id).1 = (mapGet s.servers id).isSome) ∧
    (mapGet (deleteServer s id).2.servers id = none) ∧
    (∀ j, j ≠ id → mapGet (deleteServer s id).2.servers j = mapGet s.servers j) ∧
    ((deleteServer s id).2.pingLogs = s.pingLogs) ∧
    (∀ tid lim, getPingLogs (deleteServer s id).2 tid lim = getPingLogs s tid lim) := by
  refine ⟨mapHas_eq_isSome s.servers id, mapGet_delete_self s.servers id,
    fun j hj => mapGet_delete_ne s.servers id j hj, rfl, fun tid lim => rfl⟩

/-- C8 witness: deleting server 1 from a store holding server 1 and its log
reports prior existence, leaves server 2 lookups and the history query for
the deleted id unchanged. -/
theorem delete_keeps_history_witness :
    ((deleteServer c8state 1).1 = (mapGet c8state.servers 1).isSome) ∧
    (mapGet (deleteServer c8state 1).2.servers 2 = mapGet c8state.servers 2) ∧
    (getPingLogs (deleteServer c8state 1).2 (some 1) 100 =
      getPingLogs c8state (some 1) 100) :=
  ⟨(delete_keeps_history c8state 1).1,
   (delete_keeps_history c8state 1).2.2.1 2 (by decide),
   (delete_keeps_history c8state 1).2.2.2.2 (some 1) 100⟩

/-- C9 counterexample: with one stored record for target 1, querying the
history with the explicit targetId `0` skips the filter (JS truthiness of
`serverId`) and returns a record whose targetId is not 0, contradicting the
claim for that given targetId. -/
theorem history_query_counterexample :
    getPingLogs c9state (some 0) 100 = [c9log] ∧ c9log.serverId ≠ 0 := by
  decide

/-- Unfolding equation of `getPingLogs` for a given id. -/
theorem getPingLogs_some (s : StoreState) (sid : Nat) (limit : Nat) :
    getPingLogs s (some sid) limit =
      (sortDesc (if sid = 0 then s.pingLogs
                 else s.pingLogs.filter (fun l => l.serverId = sid))).take limit :=
  rfl

/-- Unfolding equation of `getPingLogs` with no id given. -/
theorem getPingLogs_none (s : StoreState) (limit : Nat) :
    getPingLogs s none limit = (sortDesc s.pingLogs).take limit :=
  rfl

/-- C9 amended: for every stored record set, every given nonzero targetId
and every limit, the query returns only records of that target, ordered
most-recent-first by timestamp, and at most `limit` records; with no
targetId given the result is likewise ordered and truncated (a given
targetId of 0 behaves like an absent one). -/
theorem history_query_amended (s : StoreState) (sid : Nat) (limit : Nat)
    (h : sid ≠ 0) :
    (∀ l ∈ getPingLogs s (some sid) limit, l.serverId = sid) ∧
    List.Sorted logLatest (getPingLogs s (some sid) limit) ∧
    ((getPingLogs s (some sid) limit).length ≤ limit) ∧
    List.Sorted logLatest (getPingLogs s none limit) ∧
    ((getPingLogs s none limit).length ≤ limit) := by
  refine ⟨?_, ?_, ?_, ?_, ?_⟩
  · intro l hl
    rw [getPingLogs_some, if_neg h] at hl
    have h2 : l ∈ sortDesc (s.pingLogs.filter (fun lg => lg.serverId = sid)) :=
      List.take_subset _ _ hl
    have h3 : l ∈ s.pingLogs.filter (fun lg => lg.serverId = sid) :=
      ((List.perm_insertionSort logLatest _).mem_iff).1 h2
    have h4 := List.of_mem_filter h3
    simpa using h4
  · rw [getPingLogs_some, if_neg h]
    exact List.Pairwise.sublist (List.take_sublist _ _)
      (List.sorted_insertionSort logLatest _)
  · rw [getPingLogs_some, if_neg h]
    exact List.length_take_le _ _
  · rw [getPingLogs_none]
    exact List.Pairwise.sublist (List.take_sublist _ _)
      (List.sorted_insertionSort logLatest _)
  · rw [getPingLogs_none]
    exact List.length_take_le _ _

/-- C9 witness: the query for target 1 with limit 100 on the one-record
store stays within the limit. -/
theorem history_query_amended_witness :
    (1 : Nat) ≠ 0 ∧ (getPingLogs c9state (some 1) 100).length ≤ 100 :=
  ⟨by decide, (history_query_amended c9state 1 100 (by decide)).2.2.1⟩

/-- A list of servers that all carry a truthy latency sums to at least its
length. -/
theorem truthy_sum_ge (l : List Server)
    (h : ∀ s ∈ l, truthyNum s.responseTime = true) :
    l.length ≤ (l.map (fun s => s.responseTime.getD 0)).sum := by
  induction l with
  | nil => simp
  | cons a rest ih =>
    have ha := h a (List.mem_cons_self a rest)
    have h1 : 1 ≤ a.responseTime.getD 0 := by
      cases hr : a.responseTime with
      | none => rw [hr] at ha; simp [truthyNum] at ha
      | some n =>
        rw [hr] at ha
        simp only [truthyNum, Bool.not_eq_true'] at ha
        have hn : ¬ n = 0 := by simpa using ha
        simp only [hr, Option.getD_some]
        omega
    have h2 := ih (fun s hs => h s (List.mem_cons_of_mem a hs))
    simp only [List.map_cons, List.sum_cons, List.length_cons]
    omega

/-- `jsRound` of a quotient at least 1 is positive. -/
theorem jsRound_pos (sum len : Nat) (h0 : 0 < len) (hs : len ≤ sum) :
    0 < jsRound sum len := by
  have h2 : 0 < 2 * len := by omega
  have h3 : 2 * len ≤ 2 * sum + len := by omega
  have h4 := (Nat.one_le_div_iff h2).2 h3
  unfold jsRound
  exact h4

/-- `jsRound sum len` lies within half of the exact mean `sum / len`. -/
theorem jsRound_bracket (sum len : Nat) (h : 0 < len) :
    2 * len * jsRound sum len ≤ 2 * sum + len ∧
    2 * sum ≤ 2 * len * jsRound sum len + len := by
  unfold jsRound
  have h2 : 0 < 2 * len := by omega
  have hd := Nat.div_add_mod (2 * sum + len) (2 * len)
  have hm : (2 * sum + len) % (2 * len) < 2 * len := Nat.mod_lt _ h2
  generalize hQ : 2 * len * ((2 * sum + len) / (2 * len)) = Q at hd ⊢
  generalize hR : (2 * sum + len) % (2 * len) = R at hd hm
  omega

/-- With no online-with-latency target the rendered average is `"N/A"`. -/
theorem computeStats_avg_empty (servers : List Server)
    (h : onlineWithLatency servers = []) :
    (computeStats servers).avgResponse = none := by
  unfold computeStats
  simp [h]

/-- With at least one online-with-latency target the rendered average is the
rounded mean. -/
theorem computeStats_avg_pos (servers : List Server)
    (h : onlineWithLatency servers ≠ []) :
    (computeStats servers).avgResponse =
      some (jsRound (latencySum servers) (onlineWithLatency servers).length) := by
  have hlen : 0 < (onlineWithLatency servers).length := List.length_pos.2 h
  have hmem : ∀ x ∈ onlineWithLatency servers, truthyNum x.responseTime = true := by
    intro x hx
    have h2 := List.of_mem_filter hx
    simp only [Bool.and_eq_true] at h2
    exact h2.2
  have hsum : (onlineWithLatency servers).length ≤ latencySum servers :=
    truthy_sum_ge _ hmem
  have hpos := jsRound_pos (latencySum servers)
    (onlineWithLatency servers).length hlen hsum
  unfold computeStats
  simp only
  rw [if_pos hlen, if_pos hpos]

/-- C6 counterexample: on the snapshot `[online@50ms, online@151ms]` the
route reports an average of 101 ms, which is not the exact arithmetic mean
of the latencies (101 · 2 ≠ 50 + 151): the code rounds with `Math.round`. -/
theorem stats_counterexample :
    (computeStats [onAt 50, onAt 151]).avgResponse = some 101 ∧
    101 * 2 ≠ 50 + 151 := by
  decide

/-- C6 amended: `computeStats` reports the exact status counts and total,
reports no average exactly when no target is online with a truthy (present
and nonzero) latency, and otherwise reports the arithmetic mean of those
latencies rounded to the nearest integer (within half a unit of the exact
mean, ties rounded up); on the claim's examples it returns
`{0, 0, 0, absent}` and `{2, 1, 3, 100}`. -/
theorem stats_amended (servers : List Server) :
    (computeStats servers).onlineCount =
      servers.countP (fun s => s.status = Status.online) ∧
    (computeStats servers).offlineCount =
      servers.countP (fun s => s.status = Status.offline) ∧
    (computeStats servers).totalCount = servers.length ∧
    ((computeStats servers).avgResponse = none ↔ onlineWithLatency servers = []) ∧
    (∀ a, (computeStats servers).avgResponse = some a →
      2 * (onlineWithLatency servers).length * a ≤
        2 * latencySum servers + (onlineWithLatency servers).length ∧
      2 * latencySum servers ≤
        2 * (onlineWithLatency servers).length * a + (onlineWithLatency servers).length) ∧
    computeStats [] =
      { onlineCount := 0, offlineCount := 0, totalCount := 0, avgResponse := none } ∧
    computeStats [onAt 50, onAt 150, offSrv] =
      { onlineCount := 2, offlineCount := 1, totalCount := 3, avgResponse := some 100 } := by
  refine ⟨?_, ?_, ?_, ?_, ?_, by decide, by decide⟩
  · simp [computeStats, List.countP_eq_length_filter]
  · simp [computeStats, List.countP_eq_length_filter]
  · simp [computeStats]
  · constructor
    · intro hnone
      by_contra hne
      rw [computeStats_avg_pos servers hne] at hnone
      exact Option.some_ne_none _ hnone
    · intro hempty
      exact computeStats_avg_empty servers hempty
  · intro a ha
    have hne : onlineWithLatency servers ≠ [] := by
      intro hempty
      rw [computeStats_avg_empty servers hempty] at ha
      exact Option.noConfusion ha
    have hlen : 0 < (onlineWithLatency servers).length := List.length_pos.2 hne
    rw [computeStats_avg_pos servers hne] at ha
    have haq : a = jsRound (latencySum servers) (onlineWithLatency servers).length :=
      (Option.some_inj.1 ha).symm
    rw [haq]
    exact jsRound_bracket (latencySum servers) (onlineWithLatency servers).length hlen

/-- C6 witness: on `[online@50ms, online@151ms]` the reported 101 ms average
is within half a millisecond of the exact mean 100.5 ms. -/
theorem stats_amended_witness :
    (computeStats [onAt 50, onAt 151]).avgResponse = some 101 ∧
    2 * (onlineWithLatency [onAt 50, onAt 151]).length * 101 ≤
      2 * latencySum [onAt 50, onAt 151] +
        (onlineWithLatency [onAt 50, onAt 151]).length ∧
    2 * latencySum [onAt 50, onAt 151] ≤
      2 * (onlineWithLatency [onAt 50, onAt 151]).length * 101 +
        (onlineWithLatency [onAt 50, onAt 151]).length :=
  ⟨by decide,
   ((stats_amended [onAt 50, onAt 151]).2.2.2.2.1 101 (by decide)).1,
   ((stats_amended [onAt 50, onAt 151]).2.2.2.2.1 101 (by decide)).2⟩

/-- C1 (code bug): a probe that succeeds with a measured latency of 0 ms is
recorded as status `online` with an absent latency, because
`result.responseTime || null` coerces the falsy `0` to `null` — violating
the online-implies-latency-present invariant, and producing a `"success"`
history record with a null latency against the schema's own
"null if failed" documentation. -/
theorem online_zero_latency_bug :
    zeroLatencySuccess.success = true ∧
    zeroLatencySuccess.responseTime = some 0 ∧
    (applyProbeOutcome stEx 1 zeroLatencySuccess 100).2.servers =
      [(1, { srvEx with
             status := Status.online, responseTime := none,
             lastPing := some 100 })] ∧
    ((applyProbeOutcome stEx 1 zeroLatencySuccess 100).2.pingLogs.map
      (fun l => (l.status, l.responseTime))) =
        [("success", (none : Option Nat))] := by
  decide

/-- `createServers` advances the server counter by the batch size and leaves
the log counter alone. -/
theorem createServers_counter (inss : List InsertServer) (s : StoreState)
    (now : Nat) :
    (createServers s inss now).2.currentServerId =
      s.currentServerId + inss.length ∧
    (createServers s inss now).2.currentPingLogId = s.currentPingLogId := by
  induction inss generalizing s with
  | nil => simp [createServers]
  | cons a rest ih =>
    unfold createServers
    simp only
    have h := ih { s with
      servers := mapSet s.servers s.currentServerId (mkServer s.currentServerId a now),
      currentServerId := s.currentServerId + 1 }
    refine ⟨?_, h.2⟩
    rw [h.1]
    simp only [List.length_cons]
    omega

/-- No store operation ever decreases the server-id counter. -/
theorem applyOp_serverCounter_mono (s : StoreState) (op : StoreOp) :
    s.currentServerId ≤ (applyOp s op).currentServerId := by
  cases op with
  | create ins now => simp [applyOp, createServer]
  | createMany inss now =>
    rw [applyOp, (createServers_counter inss s now).1]
    omega
  | update id u =>
    unfold applyOp updateServer
    cases h : mapGet s.servers id <;> simp [h]
  | delete id => simp [applyOp, deleteServer]
  | appendLog ins now => simp [applyOp, createPingLog]
  | setSettings u => simp [applyOp, updateSettings]

/-- No store operation ever decreases the log-id counter. -/
theorem applyOp_logCounter_mono (s : StoreState) (op : StoreOp) :
    s.currentPingLogId ≤ (applyOp s op).currentPingLogId := by
  cases op with
  | create ins now => simp [applyOp, createServer]
  | createMany inss now =>
    rw [applyOp, (createServers_counter inss s now).2]
  | update id u =>
    unfold applyOp updateServer
    cases h : mapGet s.servers id <;> simp [h]
  | delete id => simp [applyOp, deleteServer]
  | appendLog ins now => simp [applyOp, createPingLog]
  | setSettings u => simp [applyOp, updateSettings]

/-- Every server id handed out by one operation is at least the counter. -/
theorem serverIdsAssigned_lb {s : StoreState} {op : StoreOp} {a : Nat}
    (h : a ∈ serverIdsAssigned s op) : s.currentServerId ≤ a := by
  cases op with
  | create ins now =>
    simp only [serverIdsAssigned, List.mem_singleton] at h
    omega
  | createMany inss now =>
    simp only [serverIdsAssigned] at h
    exact (List.mem_range'_1.1 h).1
  | update id u => simp [serverIdsAssigned] at h
  | delete id => simp [serverIdsAssigned] at h
  | appendLog ins now => simp [serverIdsAssigned] at h
  | setSettings u => simp [serverIdsAssigned] at h

/-- Every server id handed out by one operation is below the counter the
operation leaves behind. -/
theorem serverIdsAssigned_ub {s : StoreState} {op : StoreOp} {a : Nat}
    (h : a ∈ serverIdsAssigned s op) :
    a < (applyOp s op).currentServerId := by
  cases op with
  | create ins now =>
    simp only [serverIdsAssigned, List.mem_singleton] at h
    simp [applyOp, createServer]
    omega
  | createMany inss now =>
    simp only [serverIdsAssigned] at h
    rw [applyOp, (createServers_counter inss s now).1]
    exact (List.mem_range'_1.1 h).2
  | update id u => simp [serverIdsAssigned] at h
  | delete id => simp [serverIdsAssigned] at h
  | appendLog ins now => simp [serverIdsAssigned] at h
  | setSettings u => simp [serverIdsAssigned] at h

/-- Every log id handed out by one operation is at least the counter. -/
theorem logIdsAssigned_lb {s : StoreState} {op : StoreOp} {a : Nat}
    (h : a ∈ logIdsAssigned s op) : s.currentPingLogId ≤ a := by
  cases op with
  | appendLog ins now =>
    simp only [logIdsAssigned, List.mem_singleton] at h
    omega
  | create ins now => simp [logIdsAssigned] at h
  | createMany inss now => simp [logIdsAssigned] at h
  | update id u => simp [logIdsAssigned] at h
  | delete id => simp [logIdsAssigned] at h
  | setSettings u => simp [logIdsAssigned] at h

/-- Every log id handed out by one operation is below the counter the
operation leaves behind. -/
theorem logIdsAssigned_ub {s : StoreState} {op : StoreOp} {a : Nat}
    (h : a ∈ logIdsAssigned s op) : a < (applyOp s op).currentPingLogId := by
  cases op with
  | appendLog ins now =>
    simp only [logIdsAssigned, List.mem_singleton] at h
    simp [applyOp, createPingLog]
    omega
  | create ins now => simp [logIdsAssigned] at h
  | createMany inss now => simp [logIdsAssigned] at h
  | update id u => simp [logIdsAssigned] at h
  | delete id => simp [logIdsAssigned] at h
  | setSettings u => simp [logIdsAssigned] at h

/-- Every server id handed out along a run is at least the initial counter. -/
theorem assignedServerIds_lb (ops : List StoreOp) :
    ∀ (s : StoreState) (a : Nat), a ∈ assignedServerIds s ops →
      s.currentServerId ≤ a := by
  induction ops with
  | nil => intro s a h; simp [assignedServerIds] at h
  | cons op rest ih =>
    intro s a h
    rw [assignedServerIds] at h
    rcases List.mem_append.1 h with h1 | h2
    · exact serverIdsAssigned_lb h1
    · exact le_trans (applyOp_serverCounter_mono s op) (ih _ _ h2)

/-- Every log id handed out along a run is at least the initial counter. -/
theorem assignedLogIds_lb (ops : List StoreOp) :
    ∀ (s : StoreState) (a : Nat), a ∈ assignedLogIds s ops →
      s.currentPingLogId ≤ a := by
  induction ops with
  | nil => intro s a h; simp [assignedLogIds] at h
  | cons op rest ih =>
    intro s a h
    rw [assignedLogIds] at h
    rcases List.mem_append.1 h with h1 | h2
    · exact logIdsAssigned_lb h1
    · exact le_trans (applyOp_logCounter_mono s op) (ih _ _ h2)

/-- The server ids handed out by one operation are strictly increasing. -/
theorem serverIdsAssigned_pairwise (s : StoreState) (op : StoreOp) :
    (serverIdsAssigned s op).Pairwise (fun a b => a < b) := by
  cases op with
  | create ins now => simp [serverIdsAssigned]
  | createMany inss now => exact List.pairwise_lt_range' _ _
  | update id u => simp [serverIdsAssigned]
  | delete id => simp [serverIdsAssigned]
  | appendLog ins now => simp [serverIdsAssigned]
  | setSettings u => simp [serverIdsAssigned]

/-- All server ids handed out along a run are strictly increasing (so, in
particular, pairwise distinct: no id is ever reused). -/
theorem assignedServerIds_pairwise (ops : List StoreOp) :
    ∀ s : StoreState, (assignedServerIds s ops).Pairwise (fun a b => a < b) := by
  induction ops with
  | nil => intro s; simp [assignedServerIds]
  | cons op rest ih =>
    intro s
    rw [assignedServerIds, List.pairwise_append]
    refine ⟨serverIdsAssigned_pairwise s op, ih _, ?_⟩
    intro a ha b hb
    have h1 : a < (applyOp s op).currentServerId := serverIdsAssigned_ub ha
    have h2 : (applyOp s op).currentServerId ≤ b :=
      assignedServerIds_lb rest _ b hb
    omega

/-- All log ids handed out along a run are strictly increasing. -/
theorem assignedLogIds_pairwise (ops : List StoreOp) :
    ∀ s : StoreState, (assignedLogIds s ops).Pairwise (fun a b => a < b) := by
  induction ops with
  | nil => intro s; simp [assignedLogIds]
  | cons op rest ih =>
    intro s
    rw [assignedLogIds, List.pairwise_append]
    refine ⟨?_, ih _, ?_⟩
    · cases op <;> simp [logIdsAssigned]
    · intro a ha b hb
      have h1 : a < (applyOp s op).currentPingLogId := logIdsAssigned_ub ha
      have h2 : (applyOp s op).currentPingLogId ≤ b :=
        assignedLogIds_lb rest _ b hb
      omega

/-- Every element of a list is at most `listMax` of the list. -/
theorem le_listMax {l : List Nat} {x : Nat} (h : x ∈ l) : x ≤ listMax l := by
  induction l with
  | nil => cases h
  | cons a rest ih =>
    rw [listMax, List.foldr_cons]
    rcases List.mem_cons.1 h with rfl | h2
    · exact le_max_left _ _
    · exact le_trans (ih h2) (le_max_right _ _)

/-- After loading a persisted file, each counter sits one above the largest
loaded id of its collection. -/
theorem loadData_counters (d : PersistedData) (L : List Server)
    (P : List PingLog) (hS : d.servers = some L) (hP : d.pingLogs = some P) :
    (loadData d).currentServerId = listMax (L.map Server.id) + 1 ∧
    (loadData d).currentPingLogId = listMax (P.map PingLog.id) + 1 := by
  unfold loadData
  rw [hS, hP]
  cases d.settings <;> simp

/-- C10: after the store loads a persisted file, every server id handed out
by any subsequent sequence of store operations is strictly greater than
every server id that was loaded, and the handed-out ids are strictly
increasing among themselves — and likewise for probe-record ids. Ids are
never reused within a process lifetime or across a restart. -/
theorem ids_fresh_after_restart (d : PersistedData) (L : List Server)
    (P : List PingLog) (ops : List StoreOp)
    (hS : d.servers = some L) (hP : d.pingLogs = some P) :
    (∀ a ∈ assignedServerIds (loadData d) ops,
      ∀ lid ∈ L.map Server.id, lid < a) ∧
    ((assignedServerIds (loadData d) ops).Pairwise (fun a b => a < b)) ∧
    (∀ a ∈ assignedLogIds (loadData d) ops,
      ∀ lid ∈ P.map PingLog.id, lid < a) ∧
    ((assignedLogIds (loadData d) ops).Pairwise (fun a b => a < b)) := by
  have hc := loadData_counters d L P hS hP
  refine ⟨?_, assignedServerIds_pairwise ops _, ?_,
    assignedLogIds_pairwise ops _⟩
  · intro a ha lid hlid
    have h1 : (loadData d).currentServerId ≤ a :=
      assignedServerIds_lb ops _ a ha
    have h2 : lid ≤ listMax (L.map Server.id) := le_listMax hlid
    rw [hc.1] at h1
    omega
  · intro a ha lid hlid
    have h1 : (loadData d).currentPingLogId ≤ a :=
      assignedLogIds_lb ops _ a ha
    have h2 : lid ≤ listMax (P.map PingLog.id) := le_listMax hlid
    rw [hc.2] at h1
    omega

/-- C10 witness: loading a file holding server id 7 and log id 3, then
creating a server and appending a log, hands out server id 8 > 7 and log
id 4 > 3. -/
theorem ids_fresh_after_restart_witness :
    docEx.servers = some [loadedSrv7] ∧ (7 : Nat) < 8 ∧ (3 : Nat) < 4 :=
  ⟨rfl,
   (ids_fresh_after_restart docEx [loadedSrv7] [loadedLog3] opsEx rfl rfl).1
     8 (by decide) 7 (by decide),
   (ids_fresh_after_restart docEx [loadedSrv7] [loadedLog3] opsEx rfl rfl).2.2.1
     4 (by decide) 3 (by decide)⟩

end ServerMonitor
